import Mathlib

/-!
Shallow embedding of the task-orchestration core of the `specprint`
repository (Go backend `app.go` plus the Kanban frontend
`KanbanBoard.tsx`), together with theorems settling the frozen claims
about it.

Conventions of the embedding:
* Go strings are Lean `String`s; byte-level operations of the source are
  modelled at character granularity (all the strings the claims exercise
  are ASCII, where the two coincide).
* Go subprocess calls and filesystem effects are modelled by explicit
  state passing (`GitWorld`) and by outcome oracles recorded in an
  environment structure: each oracle says whether the corresponding
  external call succeeds, and the modelled function threads the state
  exactly as the source does.
* Go `time.Time` values are modelled as `Int` instants; `a.After(b)` is
  `a > b`.
-/

namespace Specprint

/-! ## Go string primitives -/

/-- Characters accepted by Go `unicode.IsSpace` in the Latin-1 range;
`strings.TrimSpace` trims exactly these (the sources only ever produce
ASCII whitespace). -/
def goIsSpace (c : Char) : Bool :=
  c = ' ' ∨ c = '\t' ∨ c = '\n' ∨ c = '\x0b' ∨ c = '\x0c' ∨ c = '\r' ∨
  c = '\x85' ∨ c = '\xa0'

/-- Drop the longest suffix of characters satisfying `p` (Go
`strings.TrimRight` with a character-set cutset). -/
def trimRightBy (p : Char → Bool) (l : List Char) : List Char :=
  (l.reverse.dropWhile p).reverse

/-- Drop the longest matching prefix and suffix (Go `strings.Trim` with a
character-set cutset). -/
def trimBy (p : Char → Bool) (l : List Char) : List Char :=
  trimRightBy p (l.dropWhile p)

/-- Go `strings.TrimSpace`. -/
def goTrimSpace (s : String) : String :=
  String.mk (trimBy goIsSpace s.data)

/-- Go `strings.ToLower`, restricted to the ASCII range (non-ASCII
letters are irrelevant here: every non-ASCII character is later dropped
by the slug filter whether lowercased or not). -/
def goToLower (c : Char) : Char :=
  if 'A' ≤ c ∧ c ≤ 'Z' then Char.ofNat (c.toNat + 32) else c

/-! ## generateBranchName (app.go:1406-1432) -/

/-- One step of the character filter of `generateBranchName`
(app.go:1413-1420): keep `[a-z0-9-]`, map `.` `/` `\` to `-`, drop the
rest. -/
def slugChar (c : Char) : List Char :=
  if ('a' ≤ c ∧ c ≤ 'z') ∨ ('0' ≤ c ∧ c ≤ '9') ∨ c = '-' then [c]
  else if c = '.' ∨ c = '/' ∨ c = '\\' then ['-']
  else []

/-- The slug of a task title, as computed by `generateBranchName`
(app.go:1406-1430): lowercase, map spaces and underscores to hyphens,
filter through `slugChar`, truncate to 40 characters (bytes in Go, equal
here because the filtered text is ASCII), trim trailing hyphens. -/
def slugOf (taskTitle : String) : String :=
  let lowered := taskTitle.data.map goToLower
  let hyphened := lowered.map (fun c => if c = ' ' ∨ c = '_' then '-' else c)
  let clean := hyphened.flatMap slugChar
  let truncated := clean.take 40
  String.mk (trimRightBy (fun c => c = '-') truncated)

/-- `generateBranchName` (app.go:1406-1432): `task-{id}-{slug}`. -/
def generateBranchName (taskID : Int) (taskTitle : String) : String :=
  "task-" ++ toString taskID ++ "-" ++ slugOf taskTitle

/-! ## checkForGitChanges (app.go:1503-1557) -/

/-- Split a character list on a separator character (the semantics of Go
`strings.Split` with a one-character separator); the accumulator holds
the current field reversed. -/
def splitCharAux (sep : Char) : List Char → List Char → List (List Char)
  | [], acc => [acc.reverse]
  | c :: cs, acc =>
    if c = sep then acc.reverse :: splitCharAux sep cs []
    else splitCharAux sep cs (c :: acc)

/-- Split a character list on the four-character rename separator
`" -> "` (the semantics of Go `strings.Split(s, " -> ")`: leftmost match
first, scanning resumes after the match). -/
def splitArrowAux : List Char → List Char → List (List Char)
  | [], acc => [acc.reverse]
  | ' ' :: '-' :: '>' :: ' ' :: cs, acc => acc.reverse :: splitArrowAux cs []
  | c :: cs, acc => splitArrowAux cs (c :: acc)

/-- Parse one line of `git status --porcelain` output exactly as the loop
body of `checkForGitChanges` (app.go:1520-1552) does: skip empty lines
and lines shorter than 3 characters, split the two status characters off
by position, trim leading spaces and tabs, resolve `old -> new` rename
entries to the new path, strip surrounding double quotes, trim
whitespace; yield the filename when it is non-empty. -/
def parseStatusLine (line : String) : Option String :=
  if line = "" then none
  else if 3 ≤ line.length then
    let statusPart := (line.data.take 2)
    let remaining := String.mk (line.data.drop 2)
    let fn0 := String.mk (remaining.data.dropWhile (fun c => c = ' ' ∨ c = '\t'))
    let fn1 :=
      match (splitArrowAux fn0.data []).map String.mk with
      | [_, b] => goTrimSpace b
      | _ => fn0
    let fn2 := goTrimSpace (String.mk (trimBy (fun c => c = '\"') fn1.data))
    if fn2 ≠ "" ∧ statusPart.length = 2 then some fn2 else none
  else none

/-- `checkForGitChanges` (app.go:1503-1557). The argument is the combined
output of the `git status --porcelain` subprocess, `none` when the
subprocess itself failed; in that case the source returns `(false, nil)`
(app.go:1508-1511). Otherwise the output is trimmed, split into lines,
and each line parsed by `parseStatusLine`; the boolean is whether the
collected file list is non-empty (app.go:1556). -/
def checkForGitChanges (statusOutput : Option String) : Bool × List String :=
  match statusOutput with
  | none => (false, [])
  | some out =>
    let lines := (splitCharAux '\n' (goTrimSpace out).data []).map String.mk
    let changedFiles := lines.filterMap parseStatusLine
    (decide (0 < changedFiles.length), changedFiles)

/-! ## Task model and dependency readiness (KanbanBoard.tsx) -/

/-- A board task as persisted by the frontend (`types.ts` / app.go:85-95).
`dependencies` is a list of task ids; `status` is one of `todo`,
`in-progress`, `done`; `worktreePath` and `sessionId` are optional. -/
structure Task where
  id : Int
  title : String
  description : String
  dependencies : List Int
  status : String
  worktreePath : Option String
  sessionId : Option String
  isRunning : Bool
  deriving Repr, DecidableEq

/-- The tasks of the collection referenced by `t.dependencies`
(KanbanBoard.tsx:420: `tasks.filter(u => t.dependencies.includes(u.id))`). -/
def dependencyTasks (tasks : List Task) (t : Task) : List Task :=
  tasks.filter (fun u => t.dependencies.contains u.id)

/-- The resolved dependencies that are done (KanbanBoard.tsx:421). -/
def completedDependencies (tasks : List Task) (t : Task) : List Task :=
  (dependencyTasks tasks t).filter (fun u => u.status = "done")

/-- The test applied by the duplicated dependency gates of the frontend
(KanbanBoard.tsx:98-100, 289-291, 420-422): the count of resolved done
dependencies equals the number of dependency ids. -/
def allDependenciesCompleted (tasks : List Task) (t : Task) : Bool :=
  (completedDependencies tasks t).length = t.dependencies.length

/-- The `readyTasks` membership predicate (KanbanBoard.tsx:418-423): a
task with no dependencies is ready, otherwise ready iff
`allDependenciesCompleted`. -/
def isReady (tasks : List Task) (t : Task) : Bool :=
  if t.dependencies.isEmpty then true else allDependenciesCompleted tasks t

/-- The `blockedTasks` membership predicate (KanbanBoard.tsx:424-429). -/
def isBlocked (tasks : List Task) (t : Task) : Bool :=
  if t.dependencies.isEmpty then false else ¬ allDependenciesCompleted tasks t

/-- A dependency id `d` resolves to a done task of the collection. -/
def resolvesDone (tasks : List Task) (d : Int) : Prop :=
  ∃ u ∈ tasks, u.id = d ∧ u.status = "done"

instance (tasks : List Task) (d : Int) : Decidable (resolvesDone tasks d) := by
  unfold resolvesDone
  infer_instance

/-! ## Helper lemmas -/

theorem length_trimRightBy_le (p : Char → Bool) (l : List Char) :
    (trimRightBy p l).length ≤ l.length := by
  unfold trimRightBy
  rw [List.length_reverse]
  calc (l.reverse.dropWhile p).length ≤ l.reverse.length :=
        (List.dropWhile_sublist p).length_le
    _ = l.length := List.length_reverse l

theorem mem_of_mem_trimRightBy {p : Char → Bool} {l : List Char} {c : Char}
    (h : c ∈ trimRightBy p l) : c ∈ l := by
  unfold trimRightBy at h
  rw [List.mem_reverse] at h
  have := (List.dropWhile_sublist p (l := l.reverse)).mem h
  rwa [List.mem_reverse] at this

theorem mem_slugChar {b c : Char} (h : c ∈ slugChar b) :
    ('a' ≤ c ∧ c ≤ 'z') ∨ ('0' ≤ c ∧ c ≤ '9') ∨ c = '-' := by
  unfold slugChar at h
  split at h
  · next hb =>
    rw [List.mem_singleton] at h
    subst h
    exact hb
  · split at h
    · rw [List.mem_singleton] at h
      subst h
      right; right; rfl
    · simp at h

theorem slugOf_length_le (title : String) : (slugOf title).length ≤ 40 := by
  unfold slugOf
  show (trimRightBy _ _).length ≤ 40
  calc (trimRightBy (fun c => c = '-') _).length
      ≤ (List.take 40 _).length := length_trimRightBy_le _ _
    _ ≤ 40 := by
        rw [List.length_take]
        exact min_le_left _ _

theorem slugOf_chars (title : String) :
    ∀ c ∈ (slugOf title).data, ('a' ≤ c ∧ c ≤ 'z') ∨ ('0' ≤ c ∧ c ≤ '9') ∨ c = '-' := by
  intro c hc
  unfold slugOf at hc
  have h1 : c ∈ List.take 40 (((title.data.map goToLower).map
      (fun c => if c = ' ' ∨ c = '_' then '-' else c)).flatMap slugChar) :=
    mem_of_mem_trimRightBy hc
  have h2 := List.mem_of_mem_take h1
  rw [List.mem_flatMap] at h2
  obtain ⟨b, _, hb2⟩ := h2
  exact mem_slugChar hb2

/-- Counting a disjunction of pointwise-disjoint predicates splits into a
sum. -/
theorem countP_or_disjoint {α : Type} (p q : α → Bool) (l : List α)
    (h : ∀ a, ¬(p a = true ∧ q a = true)) :
    l.countP (fun a => p a || q a) = l.countP p + l.countP q := by
  induction l with
  | nil => simp
  | cons a l ih =>
    rw [List.countP_cons, List.countP_cons, List.countP_cons, ih]
    rcases hp : p a with _ | _ <;> rcases hq : q a with _ | _ <;>
      simp [hp, hq] <;> first | omega | exact absurd ⟨hp, hq⟩ (h a)

/-- With pairwise-distinct task ids, at most one task matches a given id
(and any further condition). -/
theorem countP_id_le_one (tasks : List Task) (hids : (tasks.map Task.id).Nodup)
    (d : Int) (q : Task → Bool) :
    tasks.countP (fun u => decide (u.id = d) && q u) ≤ 1 := by
  induction tasks with
  | nil => simp
  | cons u l ih =>
    rw [List.map_cons, List.nodup_cons] at hids
    obtain ⟨hu, hl⟩ := hids
    rw [List.countP_cons]
    by_cases hud : u.id = d
    · have hzero : l.countP (fun v => decide (v.id = d) && q v) = 0 := by
        rw [List.countP_eq_zero]
        intro v hv
        simp only [Bool.and_eq_true, decide_eq_true_eq, not_and]
        intro hvd
        exfalso
        apply hu
        rw [hud, ← hvd]
        exact List.mem_map_of_mem Task.id hv
      rw [hzero]
      split <;> omega
    · have hdec : (decide (u.id = d) && q u) = false := by simp [hud]
      rw [hdec]
      have hle := ih hl
      simp only [Bool.false_eq_true, if_false]
      omega

/-- One task matches `id = d ∧ done` iff `d` resolves to a done task. -/
theorem countP_id_done_pos (tasks : List Task) (d : Int) :
    0 < tasks.countP (fun u => decide (u.id = d) && decide (u.status = "done"))
      ↔ resolvesDone tasks d := by
  rw [List.countP_pos_iff]
  unfold resolvesDone
  constructor
  · rintro ⟨u, hu, hprop⟩
    rw [Bool.and_eq_true, decide_eq_true_eq, decide_eq_true_eq] at hprop
    exact ⟨u, hu, hprop⟩
  · rintro ⟨u, hu, h1, h2⟩
    exact ⟨u, hu, by rw [Bool.and_eq_true, decide_eq_true_eq, decide_eq_true_eq]; exact ⟨h1, h2⟩⟩

/-- Splitting the done-resolved count over a cons of dependency ids. -/
theorem countP_deps_cons (tasks : List Task) (d : Int) (ds : List Int) (hd : d ∉ ds) :
    tasks.countP (fun u => decide (u.id ∈ d :: ds) && decide (u.status = "done"))
      = tasks.countP (fun u => decide (u.id = d) && decide (u.status = "done"))
        + tasks.countP (fun u => decide (u.id ∈ ds) && decide (u.status = "done")) := by
  have hdisj : ∀ u : Task,
      ¬((decide (u.id = d) && decide (u.status = "done")) = true ∧
        (decide (u.id ∈ ds) && decide (u.status = "done")) = true) := by
    intro u hcontra
    obtain ⟨ha, hb⟩ := hcontra
    simp only [Bool.and_eq_true, decide_eq_true_eq] at ha hb
    obtain ⟨h1, _⟩ := ha
    obtain ⟨h2, _⟩ := hb
    rw [h1] at h2
    exact hd h2
  rw [← countP_or_disjoint _ _ tasks hdisj]
  apply List.countP_congr
  intro u _
  by_cases h1 : u.id = d
  · by_cases h2 : u.id ∈ ds <;> simp [h1, h2]
  · by_cases h2 : u.id ∈ ds <;> simp [h1, h2]

/-- The count of done tasks whose id appears in `deps` never exceeds the
number of dependency ids. -/
theorem countP_deps_le (tasks : List Task) (hids : (tasks.map Task.id).Nodup)
    (deps : List Int) (hdeps : deps.Nodup) :
    tasks.countP (fun u => decide (u.id ∈ deps) && decide (u.status = "done"))
      ≤ deps.length := by
  induction deps with
  | nil => simp
  | cons d ds ih =>
    rw [List.nodup_cons] at hdeps
    obtain ⟨hd, hds⟩ := hdeps
    rw [countP_deps_cons tasks d ds hd, List.length_cons]
    have h1 := countP_id_le_one tasks hids d (fun u => decide (u.status = "done"))
    have hih := ih hds
    omega

/-- Counting characterization of the frontend gate: the done-resolved
count reaches the number of dependency ids exactly when every id resolves
to a done task (given distinct task ids and distinct dependency ids). -/
theorem countP_deps_eq_iff (tasks : List Task) (hids : (tasks.map Task.id).Nodup)
    (deps : List Int) (hdeps : deps.Nodup) :
    (tasks.countP (fun u => decide (u.id ∈ deps) && decide (u.status = "done"))
      = deps.length) ↔ ∀ d ∈ deps, resolvesDone tasks d := by
  induction deps with
  | nil => simp
  | cons d ds ih =>
    rw [List.nodup_cons] at hdeps
    obtain ⟨hd, hds⟩ := hdeps
    have hone := countP_id_le_one tasks hids d (fun u => decide (u.status = "done"))
    have hle := countP_deps_le tasks hids ds hds
    rw [countP_deps_cons tasks d ds hd, List.length_cons]
    constructor
    · intro heq
      have hc1 : tasks.countP (fun u => decide (u.id = d) && decide (u.status = "done")) = 1 := by
        omega
      have hc2 : tasks.countP (fun u => decide (u.id ∈ ds) && decide (u.status = "done"))
          = ds.length := by omega
      intro e he
      rcases List.mem_cons.mp he with rfl | hmem
      · exact (countP_id_done_pos tasks e).mp (by omega)
      · exact (ih hds).mp hc2 e hmem
    · intro hall
      have hc1 : 0 < tasks.countP (fun u => decide (u.id = d) && decide (u.status = "done")) :=
        (countP_id_done_pos tasks d).mpr (hall d (List.mem_cons_self d ds))
      have hc2 : tasks.countP (fun u => decide (u.id ∈ ds) && decide (u.status = "done"))
          = ds.length :=
        (ih hds).mpr (fun e he => hall e (List.mem_cons_of_mem d he))
      omega

/-- The length of `completedDependencies` is the done-resolved count. -/
theorem completedDependencies_length (tasks : List Task) (t : Task) :
    (completedDependencies tasks t).length
      = tasks.countP (fun u => decide (u.id ∈ t.dependencies) && decide (u.status = "done")) := by
  unfold completedDependencies dependencyTasks
  rw [List.filter_filter, ← List.countP_eq_length_filter]
  apply List.countP_congr
  intro u _
  by_cases h1 : u.id ∈ t.dependencies
  · by_cases h2 : u.status = "done" <;> simp [h1, h2]
  · by_cases h2 : u.status = "done" <;> simp [h1, h2]

/-- Blocked is the boolean negation of ready (KanbanBoard.tsx:418-429). -/
theorem isBlocked_eq_not_isReady (tasks : List Task) (t : Task) :
    isBlocked tasks t = !(isReady tasks t) := by
  unfold isBlocked isReady
  split <;> simp

/-- Sample task: id 1, no dependencies, done. -/
def taskA : Task := ⟨1, "A", "", [], "done", none, none, false⟩

/-- Sample task: id 2, depends on task 1 and on the dangling id 3. -/
def taskB : Task := ⟨2, "B", "", [1, 3], "todo", none, none, false⟩

/-- C1: for every task of the board, the `readyTasks` predicate holds iff
the task has no dependencies or every dependency id resolves to a task of
the collection whose status is `done`; and a task having a dependency id
that matches no task of the collection is never ready (always blocked).
Hypotheses: the collection has pairwise-distinct task ids and the task
has pairwise-distinct dependency ids (the count-based gate of
KanbanBoard.tsx:418-429 compares sizes, which matches the resolution
semantics exactly under these conditions). -/
theorem readiness_iff_deps_done (tasks : List Task) (t : Task)
    (hids : (tasks.map Task.id).Nodup) (hdeps : t.dependencies.Nodup) :
    (isReady tasks t = true ↔
      (t.dependencies = [] ∨ ∀ d ∈ t.dependencies, resolvesDone tasks d)) ∧
    ((∃ d ∈ t.dependencies, ∀ u ∈ tasks, u.id ≠ d) →
      isReady tasks t = false ∧ isBlocked tasks t = true) := by
  have hmain : isReady tasks t = true ↔
      (t.dependencies = [] ∨ ∀ d ∈ t.dependencies, resolvesDone tasks d) := by
    unfold isReady
    rcases hemp : t.dependencies.isEmpty with _ | _
    · rw [List.isEmpty_eq_false] at hemp
      have hne : ¬ t.dependencies = [] := hemp
      simp only [Bool.false_eq_true, if_false]
      unfold allDependenciesCompleted
      rw [decide_eq_true_eq, completedDependencies_length,
        countP_deps_eq_iff tasks hids t.dependencies hdeps]
      constructor
      · intro h
        exact Or.inr h
      · rintro (h | h)
        · exact absurd h hne
        · exact h
    · rw [List.isEmpty_iff] at hemp
      simp [hemp]
  refine ⟨hmain, ?_⟩
  rintro ⟨d, hd, hnone⟩
  have hnotall : ¬ (t.dependencies = [] ∨ ∀ e ∈ t.dependencies, resolvesDone tasks e) := by
    rintro (h | h)
    · rw [h] at hd
      exact absurd hd (List.not_mem_nil d)
    · obtain ⟨u, hu, hid, _⟩ := h d hd
      exact hnone u hu hid
  have hfalse : isReady tasks t = false := by
    rcases hr : isReady tasks t with _ | _
    · rfl
    · exact absurd (hmain.mp hr) hnotall
  refine ⟨hfalse, ?_⟩
  rw [isBlocked_eq_not_isReady, hfalse]
  rfl

/-- Concrete instantiation of C1 on a two-task board where task 2 depends
on task 1 (done) and on the dangling id 3. -/
theorem readiness_iff_deps_done_witness :
    (([taskA, taskB].map Task.id).Nodup ∧ taskB.dependencies.Nodup) ∧
    ((isReady [taskA, taskB] taskB = true ↔
        (taskB.dependencies = [] ∨ ∀ d ∈ taskB.dependencies, resolvesDone [taskA, taskB] d)) ∧
      ((∃ d ∈ taskB.dependencies, ∀ u ∈ [taskA, taskB], u.id ≠ d) →
        isReady [taskA, taskB] taskB = false ∧ isBlocked [taskA, taskB] taskB = true)) :=
  ⟨⟨by decide, by decide⟩,
    readiness_iff_deps_done [taskA, taskB] taskB (by decide) (by decide)⟩

/-- C4: the change detector splits the two-character status code from the
remainder by position, resolves rename entries to the new path, strips
surrounding quotes, skips blank lines; the scenario with one modified
file and one renamed file yields exactly the two paths with
`hasChanges = true`; and `hasChanges` is true exactly when the parsed
file list is non-empty (for every possible status output, including a
failed subprocess). -/
theorem checkForGitChanges_spec :
    checkForGitChanges (some (" M src/app.go\nR  old.txt -> new.txt\n"))
      = (true, ["src/app.go", "new.txt"]) ∧
    parseStatusLine ("R  old.txt -> new.txt") = some ("new.txt") ∧
    parseStatusLine (" M \"src/my file.txt\"") = some ("src/my file.txt") ∧
    parseStatusLine ("") = none ∧
    ∀ statusOutput : Option String,
      ((checkForGitChanges statusOutput).1 = true ↔
        (checkForGitChanges statusOutput).2 ≠ []) := by
  refine ⟨by decide, by decide, by decide, by decide, ?_⟩
  intro statusOutput
  cases statusOutput with
  | none => simp [checkForGitChanges]
  | some out =>
    simp only [checkForGitChanges, decide_eq_true_eq]
    rw [← List.length_pos]

/-- C5: branch-name derivation is a pure function (hence deterministic in
its two inputs) of the form `task-{id}-{slug}`; the example for task 7
evaluates to `task-7-fix-login-bug`; the slug is at most 40 characters
and contains only characters in `[a-z0-9-]`. -/
theorem generateBranchName_spec :
    generateBranchName 7 ("Fix Login Bug!!") = ("task-7-fix-login-bug") ∧
    ∀ (taskID : Int) (title : String),
      generateBranchName taskID title
        = "task-" ++ toString taskID ++ "-" ++ slugOf title ∧
      (slugOf title).length ≤ 40 ∧
      ∀ c ∈ (slugOf title).data,
        ('a' ≤ c ∧ c ≤ 'z') ∨ ('0' ≤ c ∧ c ≤ '9') ∨ c = '-' := by
  refine ⟨by decide, ?_⟩
  intro taskID title
  exact ⟨rfl, slugOf_length_le title, slugOf_chars title⟩

/-! ## Workspaces and deduplication (app.go:631-648, 488-499) -/

/-- A registered workspace (app.go `Workspace`); `lastOpened` models the
`LastOpened time.Time` field as an instant, so Go `a.After(b)` is `a > b`.
Only the fields the claims touch are carried. -/
structure Workspace where
  name : String
  path : String
  lastOpened : Int
  hasPRD : Bool
  deriving Repr, DecidableEq

/-- One step of `deduplicateWorkspaces` (app.go:635-645). The Go code
keeps a map from name to the index of the entry already stored in
`result`; since `result` holds at most one entry per name, the map always
designates the unique stored entry with that name, which this step
locates by search: a new name is appended, a repeated name replaces the
stored entry exactly when strictly more recent (`time.After`). -/
def dedupInsert (w : Workspace) : List Workspace → List Workspace
  | [] => [w]
  | r :: rs =>
    if r.name = w.name then
      if w.lastOpened > r.lastOpened then w :: rs else r :: rs
    else r :: dedupInsert w rs

/-- `deduplicateWorkspaces` (app.go:631-648). -/
def deduplicateWorkspaces (workspaces : List Workspace) : List Workspace :=
  workspaces.foldl (fun result w => dedupInsert w result) []

/-- The list returned by `GetWorkspaces` (app.go:488-499): whatever list
was assembled from the registry file and the directory scan is passed
through `deduplicateWorkspaces` immediately before being saved and
returned. The assembly itself is filesystem input, universally
quantified in the theorems. -/
def getWorkspacesReturn (assembled : List Workspace) : List Workspace :=
  deduplicateWorkspaces assembled

theorem dedupInsert_mem {w : Workspace} {acc : List Workspace} {r : Workspace}
    (h : r ∈ dedupInsert w acc) : r = w ∨ r ∈ acc := by
  induction acc with
  | nil =>
    rw [dedupInsert, List.mem_singleton] at h
    exact Or.inl h
  | cons a l ih =>
    rw [dedupInsert] at h
    split at h
    · split at h <;> rcases List.mem_cons.mp h with h1 | h1
      · exact Or.inl h1
      · exact Or.inr (List.mem_cons_of_mem a h1)
      · exact Or.inr (by rw [h1]; exact List.mem_cons_self a l)
      · exact Or.inr (List.mem_cons_of_mem a h1)
    · rcases List.mem_cons.mp h with h1 | h1
      · exact Or.inr (List.mem_cons.mpr (Or.inl h1))
      · rcases ih h1 with h2 | h2
        · exact Or.inl h2
        · exact Or.inr (List.mem_cons_of_mem a h2)

theorem dedupInsert_names {w : Workspace} {acc : List Workspace} {x : String}
    (h : x ∈ (dedupInsert w acc).map Workspace.name) :
    x = w.name ∨ x ∈ acc.map Workspace.name := by
  rw [List.mem_map] at h
  obtain ⟨r, hr, hx⟩ := h
  rcases dedupInsert_mem hr with h1 | h1
  · exact Or.inl (by rw [← hx, h1])
  · exact Or.inr (hx ▸ List.mem_map_of_mem Workspace.name h1)

theorem dedupInsert_nodup {w : Workspace} {acc : List Workspace}
    (h : (acc.map Workspace.name).Nodup) :
    ((dedupInsert w acc).map Workspace.name).Nodup := by
  induction acc with
  | nil => simp [dedupInsert]
  | cons a l ih =>
    rw [List.map_cons, List.nodup_cons] at h
    obtain ⟨ha, hl⟩ := h
    rw [dedupInsert]
    split
    · next heq =>
      split
      · rw [List.map_cons, List.nodup_cons]
        exact ⟨by rw [← heq]; exact ha, hl⟩
      · rw [List.map_cons, List.nodup_cons]
        exact ⟨ha, hl⟩
    · next hne =>
      rw [List.map_cons, List.nodup_cons]
      refine ⟨?_, ih hl⟩
      intro hmem
      rcases dedupInsert_names hmem with h1 | h1
      · exact hne h1
      · exact ha h1

theorem dedupInsert_keeps {acc : List Workspace} (w : Workspace) (r : Workspace)
    (hr : r ∈ acc) :
    ∃ s ∈ dedupInsert w acc, s.name = r.name ∧ r.lastOpened ≤ s.lastOpened := by
  induction acc with
  | nil => exact absurd hr (List.not_mem_nil r)
  | cons a l ih =>
    rw [dedupInsert]
    rcases List.mem_cons.mp hr with h1 | h1
    · subst h1
      split
      · next heq =>
        split
        · next hgt =>
          exact ⟨w, List.mem_cons_self w _, heq.symm, le_of_lt hgt⟩
        · exact ⟨r, List.mem_cons_self r _, rfl, le_refl _⟩
      · exact ⟨r, List.mem_cons_self r _, rfl, le_refl _⟩
    · split
      · split
        · exact ⟨r, List.mem_cons_of_mem w h1, rfl, le_refl _⟩
        · exact ⟨r, List.mem_cons_of_mem a h1, rfl, le_refl _⟩
      · obtain ⟨s, hs, hsn, hsl⟩ := ih h1
        exact ⟨s, List.mem_cons_of_mem a hs, hsn, hsl⟩

theorem dedupInsert_self (w : Workspace) (acc : List Workspace) :
    ∃ s ∈ dedupInsert w acc, s.name = w.name ∧ w.lastOpened ≤ s.lastOpened := by
  induction acc with
  | nil => exact ⟨w, List.mem_singleton_self w, rfl, le_refl _⟩
  | cons a l ih =>
    rw [dedupInsert]
    split
    · next heq =>
      split
      · next hgt =>
        exact ⟨w, List.mem_cons_self w l, rfl, le_refl _⟩
      · next hngt =>
        exact ⟨a, List.mem_cons_self a l, heq, le_of_not_lt hngt⟩
    · obtain ⟨s, hs, hsn, hsl⟩ := ih
      exact ⟨s, List.mem_cons_of_mem a hs, hsn, hsl⟩

/-- Invariants of the deduplication fold: unique names, every processed
workspace represented by an entry of the same name at least as recent,
and every output entry drawn from the accumulator or the input. -/
theorem dedup_fold_invariant (ws : List Workspace) :
    ∀ acc : List Workspace, (acc.map Workspace.name).Nodup →
      (((ws.foldl (fun result w => dedupInsert w result) acc).map Workspace.name).Nodup ∧
        (∀ r ∈ acc, ∃ s ∈ ws.foldl (fun result w => dedupInsert w result) acc,
          s.name = r.name ∧ r.lastOpened ≤ s.lastOpened) ∧
        (∀ w ∈ ws, ∃ s ∈ ws.foldl (fun result w => dedupInsert w result) acc,
          s.name = w.name ∧ w.lastOpened ≤ s.lastOpened) ∧
        (∀ s ∈ ws.foldl (fun result w => dedupInsert w result) acc, s ∈ acc ∨ s ∈ ws)) := by
  induction ws with
  | nil =>
    intro acc hacc
    refine ⟨hacc, ?_, ?_, ?_⟩
    · intro r hr
      exact ⟨r, hr, rfl, le_refl _⟩
    · intro w hw
      exact absurd hw (List.not_mem_nil w)
    · intro s hs
      exact Or.inl hs
  | cons w ws ih =>
    intro acc hacc
    have hacc1 : ((dedupInsert w acc).map Workspace.name).Nodup := dedupInsert_nodup hacc
    obtain ⟨ih1, ih2, ih3, ih4⟩ := ih (dedupInsert w acc) hacc1
    rw [List.foldl_cons]
    refine ⟨ih1, ?_, ?_, ?_⟩
    · intro r hr
      obtain ⟨s, hs, hsn, hsl⟩ := dedupInsert_keeps w r hr
      obtain ⟨u, hu, hun, hul⟩ := ih2 s hs
      exact ⟨u, hu, hun.trans hsn, hsl.trans hul⟩
    · intro v hv
      rcases List.mem_cons.mp hv with h1 | h1
      · subst h1
        obtain ⟨s, hs, hsn, hsl⟩ := dedupInsert_self v acc
        obtain ⟨u, hu, hun, hul⟩ := ih2 s hs
        exact ⟨u, hu, hun.trans hsn, hsl.trans hul⟩
      · exact ih3 v h1
    · intro s hs
      rcases ih4 s hs with h1 | h1
      · rcases dedupInsert_mem h1 with h2 | h2
        · exact Or.inr (h2 ▸ List.mem_cons_self w ws)
        · exact Or.inl h2
      · exact Or.inr (List.mem_cons_of_mem w h1)

/-- C9: the workspace list returned by `GetWorkspaces` never contains two
entries with the same name; duplicates are collapsed before saving and
returning, every returned entry is one of the assembled entries, and for
each input entry the returned entry of the same name is at least as
recently opened (so for each name an entry with the maximal `LastOpened`
time is the one kept). -/
theorem getWorkspaces_names_nodup (assembled : List Workspace) :
    ((getWorkspacesReturn assembled).map Workspace.name).Nodup ∧
    (∀ w ∈ assembled, ∃ s ∈ getWorkspacesReturn assembled,
      s.name = w.name ∧ w.lastOpened ≤ s.lastOpened) ∧
    (∀ s ∈ getWorkspacesReturn assembled, s ∈ assembled) := by
  obtain ⟨h1, _, h3, h4⟩ := dedup_fold_invariant assembled [] (by simp)
  refine ⟨h1, h3, ?_⟩
  intro s hs
  rcases h4 s hs with h | h
  · exact absurd h (List.not_mem_nil s)
  · exact h

/-! ## Worktree cleanup (app.go:1640-1735) -/

/-- Result record returned by the task-execution entry points (app.go
`TaskExecutionResult`, fields Success, Message, BranchName, FilesChanged,
ClaudeOutput, SessionID, WorktreePath). -/
structure TaskExecutionResult where
  success : Bool
  message : String
  branchName : String
  filesChanged : List String
  claudeOutput : String
  sessionID : String
  worktreePath : String
  deriving Repr, DecidableEq

/-- Failure result: only Success and Message are set, the remaining
fields stay at their zero values, as in the Go literals. -/
def TaskExecutionResult.fail (msg : String) : TaskExecutionResult :=
  ⟨false, msg, "", [], "", "", ""⟩

/-- Success result with only a message (the shape returned by
`CleanupTaskWorktree`). -/
def TaskExecutionResult.okMsg (msg : String) : TaskExecutionResult :=
  ⟨true, msg, "", [], "", "", ""⟩

/-- Go `filepath.Dir` restricted to clean slash-separated paths (the only
shape the sources build): everything before the last separator, `.` when
there is none. -/
def dirOf (p : String) : String :=
  let rev := p.data.reverse
  if rev.contains '/' then String.mk ((rev.dropWhile (fun c => ¬ c = '/')).drop 1).reverse
  else "."

/-- Go `strings.HasPrefix`. -/
def goHasPref (s pre : String) : Bool :=
  pre.data.isPrefixOf s.data

/-- The worktree directory for a task (app.go:1682, 1876):
`filepath.Join(filepath.Dir(workspace.Path), "task-{id}-{workspaceName}")`. -/
def worktreePathFor (ws : Workspace) (taskID : Int) (workspaceName : String) : String :=
  dirOf ws.path ++ "/task-" ++ toString taskID ++ "-" ++ workspaceName

/-- The branch prefix `task-{id}-` guarding branch deletion
(app.go:1715). -/
def taskBranchStart (taskID : Int) : String :=
  "task-" ++ toString taskID ++ "-"

/-- The filesystem-plus-repository state threaded through cleanup, with
outcome oracles for the external commands: `gitRemoveOk` is whether
`git worktree remove --force` succeeds, `manualRemoveOk` whether
`os.RemoveAll` succeeds, `branchDeleteOk` whether `git branch -D`
succeeds. `worktreeBranch` maps a worktree directory to its currently
checked-out branch (what `git branch --show-current` prints there);
`dirs` is the set of existing worktree directories; `branches` the branch
refs of the main repository. -/
structure GitWorld where
  workspaces : List Workspace
  dirs : List String
  branches : List String
  worktreeBranch : List (String × String)
  gitRemoveOk : Bool
  manualRemoveOk : Bool
  branchDeleteOk : Bool
  deriving Repr, DecidableEq

/-- The outcome of `CleanupTaskWorktree`: the returned record, the
resulting state, and the branch name passed to `git branch -D` when that
step ran. -/
structure CleanupOutcome where
  result : TaskExecutionResult
  world : GitWorld
  branchDeleteTried : Option String
  deriving Repr, DecidableEq

/-- State after the two removal attempts succeed in deleting the worktree
directory (app.go:1702-1712): the directory is gone from the filesystem
and its checkout record with it. -/
def removeWorktreeDir (w : GitWorld) (wt : String) : GitWorld :=
  ⟨w.workspaces, w.dirs.filter (fun d => ¬ d = wt), w.branches,
    w.worktreeBranch.filter (fun pr => ¬ pr.fst = wt),
    w.gitRemoveOk, w.manualRemoveOk, w.branchDeleteOk⟩

/-- State after the guarded branch deletion (app.go:1715-1724): the
branch ref disappears when the command succeeds; failure is only
logged. -/
def deleteBranchStep (w : GitWorld) (branchName : String) : GitWorld :=
  if w.branchDeleteOk then
    ⟨w.workspaces, w.dirs, w.branches.filter (fun b => ¬ b = branchName),
      w.worktreeBranch, w.gitRemoveOk, w.manualRemoveOk, w.branchDeleteOk⟩
  else w

/-- `CleanupTaskWorktree` (app.go:1640-1735). Validation of the inputs,
workspace lookup through `GetWorkspaces` (modelled as the deduplicated
registry; the registry rescan itself does not affect cleanup), no-op
success when the worktree directory is already absent, branch read,
forced worktree removal followed by an unconditional directory removal
(failure of both is fatal), branch deletion only under the
`task-{id}-` name guard, and metadata pruning (stateless here). -/
def cleanupTaskWorktree (w : GitWorld) (workspaceName : String) (taskID : Int) :
    CleanupOutcome :=
  if goTrimSpace workspaceName = "" then
    ⟨TaskExecutionResult.fail ("Workspace name cannot be empty"), w, none⟩
  else if taskID ≤ 0 then
    ⟨TaskExecutionResult.fail ("Task ID must be a positive integer"), w, none⟩
  else
    match (deduplicateWorkspaces w.workspaces).find? (fun ws => ws.name = workspaceName) with
    | none => ⟨TaskExecutionResult.fail ("Workspace not found"), w, none⟩
    | some ws =>
      if (w.dirs.contains (worktreePathFor ws taskID workspaceName)) = false then
        ⟨TaskExecutionResult.okMsg ("Worktree already cleaned up"), w, none⟩
      else
        let wt := worktreePathFor ws taskID workspaceName
        let branchName := (List.lookup wt w.worktreeBranch).getD ""
        if w.gitRemoveOk = false ∧ w.manualRemoveOk = false then
          ⟨TaskExecutionResult.fail ("Failed to remove worktree"), w, none⟩
        else
          if branchName ≠ "" ∧ goHasPref branchName (taskBranchStart taskID) = true then
            ⟨TaskExecutionResult.okMsg ("Successfully cleaned up worktree"),
              deleteBranchStep (removeWorktreeDir w wt) branchName, some branchName⟩
          else
            ⟨TaskExecutionResult.okMsg ("Successfully cleaned up worktree"),
              removeWorktreeDir w wt, none⟩

theorem contains_filter_ne (l : List String) (x : String) :
    (l.filter (fun d => ¬ d = x)).contains x = false := by
  simp

theorem eq_of_not_mem_filter_ne {l : List String} {x c : String}
    (hc : c ∈ l) (hnot : c ∉ l.filter (fun d => ¬ d = x)) : c = x := by
  by_contra hne
  exact hnot (List.mem_filter.mpr ⟨hc, by simpa using hne⟩)

theorem deleteBranchStep_workspaces (w : GitWorld) (b : String) :
    (deleteBranchStep w b).workspaces = w.workspaces := by
  unfold deleteBranchStep
  split <;> rfl

theorem deleteBranchStep_dirs (w : GitWorld) (b : String) :
    (deleteBranchStep w b).dirs = w.dirs := by
  unfold deleteBranchStep
  split <;> rfl

/-- With valid inputs and a registered workspace, cleanup of an absent
worktree directory is a successful no-op (app.go:1685-1690). -/
theorem cleanup_absent (w : GitWorld) (n : String) (t : Int) (ws : Workspace)
    (hname : ¬ goTrimSpace n = "") (hid : ¬ t ≤ 0)
    (hfind : (deduplicateWorkspaces w.workspaces).find? (fun x => x.name = n) = some ws)
    (habs : (w.dirs.contains (worktreePathFor ws t n)) = false) :
    cleanupTaskWorktree w n t
      = ⟨TaskExecutionResult.okMsg ("Worktree already cleaned up"), w, none⟩ := by
  unfold cleanupTaskWorktree
  rw [if_neg hname, if_neg hid, hfind]
  simp only [habs, if_pos]

/-- With the directory present and at least one removal succeeding,
cleanup succeeds, keeps the registry, and leaves the directory gone. -/
theorem cleanup_present (w : GitWorld) (n : String) (t : Int) (ws : Workspace)
    (hname : ¬ goTrimSpace n = "") (hid : ¬ t ≤ 0)
    (hfind : (deduplicateWorkspaces w.workspaces).find? (fun x => x.name = n) = some ws)
    (hpres : ¬ (w.dirs.contains (worktreePathFor ws t n)) = false)
    (hrm : ¬ (w.gitRemoveOk = false ∧ w.manualRemoveOk = false)) :
    (cleanupTaskWorktree w n t).result.success = true ∧
    (cleanupTaskWorktree w n t).world.workspaces = w.workspaces ∧
    ((cleanupTaskWorktree w n t).world.dirs.contains (worktreePathFor ws t n)) = false := by
  unfold cleanupTaskWorktree
  rw [if_neg hname, if_neg hid, hfind]
  dsimp only
  rw [if_neg hpres, if_neg hrm]
  split
  · refine ⟨rfl, ?_, ?_⟩
    · rw [deleteBranchStep_workspaces]
      rfl
    · rw [deleteBranchStep_dirs]
      exact contains_filter_ne w.dirs (worktreePathFor ws t n)
  · exact ⟨rfl, rfl, contains_filter_ne w.dirs (worktreePathFor ws t n)⟩

/-- C6: worktree cleanup is idempotent. With valid inputs and a
registered workspace: if the worktree directory for the pair is already
absent, `CleanupTaskWorktree` returns success and changes nothing; and
whenever a call succeeds, the immediately repeated call for the same task
succeeds again and leaves the state untouched (so calling it twice in a
row never errors the second time). -/
theorem cleanupTaskWorktree_idempotent (w : GitWorld) (n : String) (t : Int) (ws : Workspace)
    (hname : ¬ goTrimSpace n = "") (hid : ¬ t ≤ 0)
    (hfind : (deduplicateWorkspaces w.workspaces).find? (fun x => x.name = n) = some ws) :
    ((w.dirs.contains (worktreePathFor ws t n)) = false →
      (cleanupTaskWorktree w n t).result.success = true ∧
      (cleanupTaskWorktree w n t).world = w) ∧
    ((cleanupTaskWorktree w n t).result.success = true →
      (cleanupTaskWorktree (cleanupTaskWorktree w n t).world n t).result.success = true ∧
      (cleanupTaskWorktree (cleanupTaskWorktree w n t).world n t).world
        = (cleanupTaskWorktree w n t).world) := by
  constructor
  · intro habs
    rw [cleanup_absent w n t ws hname hid hfind habs]
    exact ⟨rfl, rfl⟩
  · intro hsucc
    by_cases habs : (w.dirs.contains (worktreePathFor ws t n)) = false
    · rw [cleanup_absent w n t ws hname hid hfind habs]
      rw [cleanup_absent w n t ws hname hid hfind habs]
      exact ⟨rfl, rfl⟩
    · by_cases hrm : w.gitRemoveOk = false ∧ w.manualRemoveOk = false
      · exfalso
        have : (cleanupTaskWorktree w n t).result.success = false := by
          unfold cleanupTaskWorktree
          rw [if_neg hname, if_neg hid, hfind]
          dsimp only
          rw [if_neg habs, if_pos hrm]
          rfl
        rw [this] at hsucc
        exact Bool.false_ne_true hsucc
      · obtain ⟨_, hkeep, hgone⟩ := cleanup_present w n t ws hname hid hfind habs hrm
        have hfind2 : (deduplicateWorkspaces
            (cleanupTaskWorktree w n t).world.workspaces).find? (fun x => x.name = n)
              = some ws := by
          rw [hkeep]
          exact hfind
        rw [cleanup_absent (cleanupTaskWorktree w n t).world n t ws hname hid hfind2 hgone]
        exact ⟨rfl, rfl⟩

/-- The branch-deletion step of cleanup runs either not at all or for a
non-empty branch name carrying the `task-{taskID}-` prefix. -/
theorem cleanup_tried_spec (w : GitWorld) (n : String) (t : Int) :
    (cleanupTaskWorktree w n t).branchDeleteTried = none ∨
    (∃ b, (cleanupTaskWorktree w n t).branchDeleteTried = some b ∧
      b ≠ "" ∧ goHasPref b (taskBranchStart t) = true) := by
  unfold cleanupTaskWorktree
  split
  · exact Or.inl rfl
  · split
    · exact Or.inl rfl
    · split
      · exact Or.inl rfl
      · dsimp only
        split
        · exact Or.inl rfl
        · split
          · exact Or.inl rfl
          · split
            · next hguard =>
              exact Or.inr ⟨_, rfl, hguard.1, hguard.2⟩
            · exact Or.inl rfl

/-- The branch refs of the repository are either untouched by cleanup or
filtered by exactly one name that passed the `task-{taskID}-` guard. -/
theorem cleanup_branches_spec (w : GitWorld) (n : String) (t : Int) :
    (cleanupTaskWorktree w n t).world.branches = w.branches ∨
    (∃ b, b ≠ "" ∧ goHasPref b (taskBranchStart t) = true ∧
      (cleanupTaskWorktree w n t).world.branches
        = w.branches.filter (fun c => ¬ c = b)) := by
  unfold cleanupTaskWorktree
  split
  · exact Or.inl rfl
  · split
    · exact Or.inl rfl
    · split
      · exact Or.inl rfl
      · dsimp only
        split
        · exact Or.inl rfl
        · split
          · exact Or.inl rfl
          · split
            · next hguard =>
              unfold deleteBranchStep
              split
              · exact Or.inr ⟨_, hguard.1, hguard.2, rfl⟩
              · exact Or.inl rfl
            · exact Or.inl rfl

/-- C8: during cleanup the branch-deletion step runs only for a branch
name carrying the `task-{taskID}-` prefix, and any branch removed from
the repository by cleanup carries that prefix — an unrelated branch is
never deleted. -/
theorem cleanup_branch_guard (w : GitWorld) (n : String) (t : Int) :
    (∀ b : String, (cleanupTaskWorktree w n t).branchDeleteTried = some b →
      b ≠ "" ∧ goHasPref b (taskBranchStart t) = true) ∧
    (∀ c ∈ w.branches, c ∉ (cleanupTaskWorktree w n t).world.branches →
      goHasPref c (taskBranchStart t) = true) := by
  constructor
  · intro b hb
    rcases cleanup_tried_spec w n t with h | ⟨b2, hb2, h1, h2⟩
    · rw [h] at hb
      exact absurd hb (by simp)
    · rw [hb2] at hb
      have : b2 = b := Option.some.inj hb
      rw [← this]
      exact ⟨h1, h2⟩
  · intro c hc hcnot
    rcases cleanup_branches_spec w n t with h | ⟨b, _, h2, heq⟩
    · rw [h] at hcnot
      exact absurd hc hcnot
    · rw [heq] at hcnot
      have hceq : c = b := eq_of_not_mem_filter_ne hc hcnot
      rw [hceq]
      exact h2

/-- Sample workspace registered at `/home/u/base/proj`. -/
def ws6 : Workspace := ⟨"proj", "/home/u/base/proj", 0, false⟩

/-- Sample world: one workspace, the worktree of task 3 present with its
task branch checked out, all removal commands succeeding. -/
def w6 : GitWorld :=
  ⟨[ws6], ["/home/u/base/task-3-proj"], ["task-3-fix", "main"],
    [("/home/u/base/task-3-proj", "task-3-fix")], true, true, true⟩

/-- Concrete instantiation of C6: cleaning task 3 of `proj` succeeds, and
the repeated call succeeds as a no-op. -/
theorem cleanupTaskWorktree_idempotent_witness :
    ((¬ goTrimSpace ("proj") = "") ∧ (¬ (3 : Int) ≤ 0) ∧
      (deduplicateWorkspaces w6.workspaces).find? (fun x => x.name = "proj") = some ws6) ∧
    (cleanupTaskWorktree w6 ("proj") 3).result.success = true ∧
    ((cleanupTaskWorktree (cleanupTaskWorktree w6 ("proj") 3).world ("proj") 3).result.success
        = true ∧
      (cleanupTaskWorktree (cleanupTaskWorktree w6 ("proj") 3).world ("proj") 3).world
        = (cleanupTaskWorktree w6 ("proj") 3).world) :=
  ⟨⟨by decide, by decide, by decide⟩, by decide,
    (cleanupTaskWorktree_idempotent w6 ("proj") 3 ws6 (by decide) (by decide)
      (by decide)).2 (by decide)⟩

/-- Concrete instantiation of C8: on `w6` the deletion step runs for
`task-3-fix`, which carries the `task-3-` prefix. -/
theorem cleanup_branch_guard_witness :
    (cleanupTaskWorktree w6 ("proj") 3).branchDeleteTried = some ("task-3-fix") ∧
    (("task-3-fix" : String) ≠ "" ∧
      goHasPref ("task-3-fix") (taskBranchStart 3) = true) :=
  ⟨by decide, (cleanup_branch_guard w6 ("proj") 3).1 ("task-3-fix") (by decide)⟩

/-! ## StartTaskConversation (app.go:1799-1925) -/

/-- Result of the agent client call (the claude package's own
`TaskExecutionResult`): the fields app.go reads are Success, Message,
SessionID and FilesChanged. -/
structure ClaudeResult where
  success : Bool
  message : String
  sessionID : String
  filesChanged : List String
  deriving Repr, DecidableEq

/-- A message of the agent transcript returned by the SDK, reduced to
the fields `ExecuteTask` (claude package, second document of
src/DEPENDENCY_ENHANCEMENTS.md) reads: a result message carries the
session id `extractSessionIDFromResult` extracts, an assistant message
carries the path arguments of its Write and Edit tool-use blocks. Text
blocks are dropped: `ExecuteTask` joins them and discards the join. -/
inductive ClaudeMessage where
  | result (sessionID : String)
  | assistant (fileOps : List String)
  deriving Repr, DecidableEq

/-- The session id after the message loop of `ExecuteTask`: each result
message overwrites the variable, so the last result message of the
transcript wins; with no result message the zero value stays. -/
def finalSessionID : List ClaudeMessage → String → String
  | [], acc => acc
  | ClaudeMessage.result s :: ms, _ => finalSessionID ms s
  | ClaudeMessage.assistant _ :: ms, acc => finalSessionID ms acc

/-- The Write/Edit tool-use paths collected over assistant messages by
the message loop of `ExecuteTask`. -/
def collectFileOps (msgs : List ClaudeMessage) : List String :=
  msgs.flatMap (fun m => match m with
    | ClaudeMessage.result _ => []
    | ClaudeMessage.assistant ops => ops)

/-- `removeDuplicates` of the claude package: first occurrence kept; the
`seen` set always equals the set of entries of `result`, realized here by
a membership test on the accumulator. -/
def removeDuplicates (slice : List String) : List String :=
  slice.foldl (fun result item =>
    if result.contains item then result else result ++ [item]) []

/-- `ExecuteTask` of the claude package (second document of
src/DEPENDENCY_ENHANCEMENTS.md): a query error or an empty transcript is
a failure; otherwise the call returns `Success: true` unconditionally,
with the session id extracted from the transcript's result messages —
possibly the empty string when the transcript carried none — and the
deduplicated list of touched files. `queryErr` is the outcome oracle of
`claudecode.QueryWithRequest`. -/
def executeTask (queryErr : Bool) (messages : List ClaudeMessage) (taskID : Int) :
    ClaudeResult :=
  if queryErr = true then
    ⟨false, "Failed to execute task with Claude", "", []⟩
  else if messages.length = 0 then
    ⟨false, "No response received from Claude", "", []⟩
  else
    ⟨true,
      "Successfully executed task " ++ toString taskID ++ ". Claude processed "
        ++ toString messages.length ++ " messages.",
      finalSessionID messages "",
      removeDuplicates (collectFileOps messages)⟩

/-- Environment of one `StartTaskConversation` call: the workspace
registry and the outcomes of the external steps, in call order —
repository open, fetch, worktree creation (`executeGitWorktreeCommands`),
the agent call, the `git status` output observed afterwards (`none` when
the subprocess fails), and the commit-and-push outcome. -/
structure StartEnv where
  workspaces : List Workspace
  repoOpenOk : Bool
  fetchOk : Bool
  worktreeCreateOk : Bool
  worktreeCreateMsg : String
  claudeResult : ClaudeResult
  gitStatusOutput : Option String
  commitPushOk : Bool
  commitPushMsg : String
  deriving Repr, DecidableEq

/-- Result record plus the worktree directories existing afterwards. -/
structure StartOutcome where
  result : TaskExecutionResult
  dirs : List String
  deriving Repr, DecidableEq

/-- Success message of `StartTaskConversation` (app.go:1918). -/
def startSuccessMsg (taskID : Int) (branchName : String) : String :=
  "Started Claude session for task " ++ toString taskID ++ " on branch " ++ branchName

/-- `StartTaskConversation` (app.go:1799-1925): validations, workspace
lookup, repository open and fetch, branch-name and worktree-path
derivation, teardown of a pre-existing worktree directory, worktree
creation, the agent call (on failure the call returns a failure wrapping
the agent message and the fresh worktree stays on disk), change
detection, conditional commit-and-push (a commit or push failure is
returned as is, with zero-valued branch and session fields), and the
success record carrying branch name, session id, worktree path and the
detected files. -/
def startTaskConversation (env : StartEnv) (dirs : List String) (workspaceName : String)
    (taskID : Int) (taskTitle taskDescription baseBranch : String) : StartOutcome :=
  if goTrimSpace workspaceName = "" then
    ⟨TaskExecutionResult.fail ("Workspace name cannot be empty"), dirs⟩
  else if taskID ≤ 0 then
    ⟨TaskExecutionResult.fail ("Task ID must be a positive integer"), dirs⟩
  else if goTrimSpace taskTitle = "" then
    ⟨TaskExecutionResult.fail ("Task title cannot be empty"), dirs⟩
  else if goTrimSpace baseBranch = "" then
    ⟨TaskExecutionResult.fail ("Base branch cannot be empty"), dirs⟩
  else
    match (deduplicateWorkspaces env.workspaces).find? (fun ws => ws.name = workspaceName) with
    | none => ⟨TaskExecutionResult.fail ("Workspace not found"), dirs⟩
    | some ws =>
      if env.repoOpenOk = false then
        ⟨TaskExecutionResult.fail ("Failed to open Git repository"), dirs⟩
      else if env.fetchOk = false then
        ⟨TaskExecutionResult.fail ("Failed to fetch from origin"), dirs⟩
      else
        let branchName := generateBranchName taskID taskTitle
        let wt := worktreePathFor ws taskID workspaceName
        let dirs1 := dirs.filter (fun d => ¬ d = wt)
        if env.worktreeCreateOk = false then
          ⟨TaskExecutionResult.fail env.worktreeCreateMsg, dirs1⟩
        else
          let dirs2 := wt :: dirs1
          if env.claudeResult.success = false then
            ⟨TaskExecutionResult.fail
                ("Failed to start Claude session: " ++ env.claudeResult.message), dirs2⟩
          else
            let changes := checkForGitChanges env.gitStatusOutput
            if changes.1 = true ∧ env.commitPushOk = false then
              ⟨TaskExecutionResult.fail env.commitPushMsg, dirs2⟩
            else
              ⟨⟨true, startSuccessMsg taskID branchName, branchName, changes.2,
                env.claudeResult.message, env.claudeResult.sessionID, wt⟩, dirs2⟩

/-! ## Frontend board handlers (KanbanBoard.tsx) -/

/-- Outcome of a board handler: the final task list and whether the
cleanup call was issued; `error` is the board error banner set by this
call. Each React `setBoardState` inside a handler recomputes from the
`boardState.tasks` captured at entry (a stale closure), so the last
update wins and the final board is a single map over the entry list. -/
structure BoardOutcome where
  tasks : List Task
  cleanupCalled : Bool
  error : Option String
  deriving Repr, DecidableEq

/-- `handleTaskMove` (KanbanBoard.tsx:93-176): same-column drops are
ignored, a move of a task with incomplete dependencies to a non-todo
column is rejected with an error, a move to `done` triggers
`CleanupTaskWorktree` and, when the call resolves, re-maps the entry
with `worktreePath: undefined` (the `sessionId` field is not touched);
when the call throws, the status update alone is applied. -/
def handleTaskMove (tasks : List Task) (task : Task)
    (sourceColumnId targetColumnId : String) (cleanupResolved : Bool) : BoardOutcome :=
  if sourceColumnId = targetColumnId then ⟨tasks, false, none⟩
  else if (¬ task.dependencies.isEmpty) ∧ allDependenciesCompleted tasks task = false ∧
      targetColumnId ≠ "todo" then
    ⟨tasks, false, some ("Cannot move task: complete dependencies first")⟩
  else if targetColumnId = "done" then
    if cleanupResolved then
      ⟨tasks.map (fun t => if t.id = task.id then
          ⟨t.id, t.title, t.description, t.dependencies, targetColumnId,
            none, t.sessionId, t.isRunning⟩
        else t), true, none⟩
    else
      ⟨tasks.map (fun t => if t.id = task.id then
          ⟨t.id, t.title, t.description, t.dependencies, targetColumnId,
            t.worktreePath, t.sessionId, t.isRunning⟩
        else t), true, some ("Failed to clean up worktree")⟩
  else
    ⟨tasks.map (fun t => if t.id = task.id then
        ⟨t.id, t.title, t.description, t.dependencies, targetColumnId,
          t.worktreePath, t.sessionId, t.isRunning⟩
      else t), false, none⟩

/-- `handleTaskStatusUpdate` (KanbanBoard.tsx:179-229): marking done with
a selected workspace calls `CleanupTaskWorktree`; on a resolved call the
entry is re-mapped with `worktreePath: undefined` (again `sessionId` is
not touched); on a thrown call, and on every other status, only the
status field changes. -/
def handleTaskStatusUpdate (tasks : List Task) (taskId : Int) (newStatus : String)
    (workspaceSelected : Bool) (cleanupResolved : Bool) : BoardOutcome :=
  if newStatus = "done" ∧ workspaceSelected = true then
    if cleanupResolved then
      ⟨tasks.map (fun t => if t.id = taskId then
          ⟨t.id, t.title, t.description, t.dependencies, newStatus,
            none, t.sessionId, t.isRunning⟩
        else t), true, none⟩
    else
      ⟨tasks.map (fun t => if t.id = taskId then
          ⟨t.id, t.title, t.description, t.dependencies, newStatus,
            t.worktreePath, t.sessionId, t.isRunning⟩
        else t), true, some ("Task marked as done but failed to clean up worktree")⟩
  else
    ⟨tasks.map (fun t => if t.id = taskId then
        ⟨t.id, t.title, t.description, t.dependencies, newStatus,
          t.worktreePath, t.sessionId, t.isRunning⟩
      else t), false, none⟩

/-- Outcome of `handleRunTask`: final tasks, board error banner, and the
success banner. -/
structure RunOutcome where
  tasks : List Task
  error : Option String
  runTaskResult : Option String
  deriving Repr, DecidableEq

/-- `handleRunTask` (KanbanBoard.tsx:276-368) after the backend call
resolved with `res`: empty base branch and incomplete dependencies are
rejected up front; on `res.success` the entry becomes `in-progress` with
`isRunning` cleared, `worktreePath` set from the result (or the derived
default when the result field is empty, `result.worktreePath || ...`) and
`sessionId` set from the result (absent when the omitempty-serialized
field is empty); on failure only `isRunning` is cleared and
`result.message` (or a fixed fallback when empty) becomes the board
error. -/
def handleRunTask (tasks : List Task) (task : Task) (baseBranch : String)
    (workspaceName : String) (res : TaskExecutionResult) : RunOutcome :=
  if baseBranch = "" then ⟨tasks, some ("Base branch must be selected"), none⟩
  else if (¬ task.dependencies.isEmpty) ∧ allDependenciesCompleted tasks task = false then
    ⟨tasks, some ("Cannot run task: complete dependencies first"), none⟩
  else if res.success = true then
    ⟨tasks.map (fun t => if t.id = task.id then
        ⟨t.id, t.title, t.description, t.dependencies, "in-progress",
          some (if res.worktreePath = "" then
              "task-" ++ toString task.id ++ "-" ++ workspaceName
            else res.worktreePath),
          if res.sessionID = "" then none else some res.sessionID,
          false⟩
      else t), none, some ("Successfully started task conversation")⟩
  else
    ⟨tasks.map (fun t => if t.id = task.id then
        ⟨t.id, t.title, t.description, t.dependencies, t.status,
          t.worktreePath, t.sessionId, false⟩
      else t),
      some (if res.message = "" then "Failed to start task conversation" else res.message),
      none⟩

theorem append_ne_empty_left (s t : String) (h : s.data ≠ []) : ¬ (s ++ t) = "" := by
  intro he
  apply h
  have hd := congrArg String.data he
  rw [String.data_append] at hd
  exact (List.append_eq_nil.mp hd).1

theorem generateBranchName_ne_empty (tid : Int) (title : String) :
    ¬ generateBranchName tid title = "" := by
  unfold generateBranchName
  intro he
  have hd := congrArg String.data he
  rw [String.data_append, String.data_append, String.data_append] at hd
  have h0 := (List.append_eq_nil.mp hd).1
  have h1 := (List.append_eq_nil.mp h0).1
  have h2 := (List.append_eq_nil.mp h1).1
  exact List.cons_ne_nil _ _ h2

/-- After validations, lookup, open, fetch and worktree creation all
pass, the call is decided by the agent result, the status output and the
commit outcome; the worktree directory exists in every one of those
outcomes. -/
theorem startTaskConversation_reached (env : StartEnv) (dirs : List String)
    (n : String) (tid : Int) (title descr base : String) (ws : Workspace)
    (hname : ¬ goTrimSpace n = "") (hid : ¬ tid ≤ 0)
    (htitle : ¬ goTrimSpace title = "") (hbase : ¬ goTrimSpace base = "")
    (hfind : (deduplicateWorkspaces env.workspaces).find? (fun x => x.name = n) = some ws)
    (hopen : ¬ env.repoOpenOk = false) (hfetch : ¬ env.fetchOk = false)
    (hcreate : ¬ env.worktreeCreateOk = false) :
    startTaskConversation env dirs n tid title descr base =
      (if env.claudeResult.success = false then
        ⟨TaskExecutionResult.fail
            ("Failed to start Claude session: " ++ env.claudeResult.message),
          worktreePathFor ws tid n :: dirs.filter (fun d => ¬ d = worktreePathFor ws tid n)⟩
      else if (checkForGitChanges env.gitStatusOutput).1 = true ∧ env.commitPushOk = false then
        ⟨TaskExecutionResult.fail env.commitPushMsg,
          worktreePathFor ws tid n :: dirs.filter (fun d => ¬ d = worktreePathFor ws tid n)⟩
      else
        ⟨⟨true, startSuccessMsg tid (generateBranchName tid title),
          generateBranchName tid title, (checkForGitChanges env.gitStatusOutput).2,
          env.claudeResult.message, env.claudeResult.sessionID, worktreePathFor ws tid n⟩,
          worktreePathFor ws tid n ::
            dirs.filter (fun d => ¬ d = worktreePathFor ws tid n)⟩) := by
  unfold startTaskConversation
  rw [if_neg hname, if_neg hid, if_neg htitle, if_neg hbase, hfind]
  dsimp only
  rw [if_neg hopen, if_neg hfetch, if_neg hcreate]

/-- A task whose dependency gate passes (no dependencies, or all
resolved and done) is not rejected by the duplicated frontend check. -/
theorem gate_not_blocked {tasks : List Task} {task : Task}
    (hgate : task.dependencies.isEmpty = true ∨ allDependenciesCompleted tasks task = true) :
    ¬ ((¬ task.dependencies.isEmpty = true) ∧
      allDependenciesCompleted tasks task = false) := by
  rintro ⟨hne, hfa⟩
  rcases hgate with h | h
  · exact hne h
  · rw [h] at hfa
    exact Bool.noConfusion hfa

/-- C7: when the agent call fails during a run, the backend returns a
failure whose message wraps the agent message, leaving the freshly
created worktree on disk, and the frontend then surfaces that message as
the board error while the task entry stays at status `todo` with
`isRunning` cleared (it does not remain in a running state) and keeps its
`worktreePath` and `sessionId` untouched — the worktree is not
destroyed. -/
theorem agent_failure_returns_todo (env : StartEnv) (dirs : List String)
    (n : String) (tid : Int) (title descr base : String) (ws : Workspace)
    (tasks : List Task) (task : Task)
    (hname : ¬ goTrimSpace n = "") (hid : ¬ tid ≤ 0)
    (htitle : ¬ goTrimSpace title = "") (hbase : ¬ goTrimSpace base = "")
    (hfind : (deduplicateWorkspaces env.workspaces).find? (fun x => x.name = n) = some ws)
    (hopen : ¬ env.repoOpenOk = false) (hfetch : ¬ env.fetchOk = false)
    (hcreate : ¬ env.worktreeCreateOk = false)
    (hclaude : env.claudeResult.success = false)
    (hbase2 : ¬ base = "")
    (hgate : task.dependencies.isEmpty = true ∨ allDependenciesCompleted tasks task = true) :
    (startTaskConversation env dirs n tid title descr base).result.success = false ∧
    (startTaskConversation env dirs n tid title descr base).result.message
      = "Failed to start Claude session: " ++ env.claudeResult.message ∧
    worktreePathFor ws tid n ∈ (startTaskConversation env dirs n tid title descr base).dirs ∧
    (handleRunTask tasks task base n
        (startTaskConversation env dirs n tid title descr base).result).error
      = some ("Failed to start Claude session: " ++ env.claudeResult.message) ∧
    (∀ t ∈ tasks, t.id = task.id ∧ t.status = "todo" →
      ∃ t2 ∈ (handleRunTask tasks task base n
          (startTaskConversation env dirs n tid title descr base).result).tasks,
        t2.id = t.id ∧ t2.status = "todo" ∧ t2.isRunning = false ∧
        t2.worktreePath = t.worktreePath ∧ t2.sessionId = t.sessionId) := by
  rw [startTaskConversation_reached env dirs n tid title descr base ws
    hname hid htitle hbase hfind hopen hfetch hcreate]
  rw [if_pos hclaude]
  have hgate2 := gate_not_blocked hgate
  have hsucc : ¬ ((TaskExecutionResult.fail
      ("Failed to start Claude session: " ++ env.claudeResult.message)).success = true) := by
    intro h
    exact Bool.false_ne_true h
  have hmsg : ¬ ((TaskExecutionResult.fail
      ("Failed to start Claude session: " ++ env.claudeResult.message)).message = "") :=
    append_ne_empty_left _ _ (List.cons_ne_nil _ _)
  refine ⟨rfl, rfl, List.mem_cons_self _ _, ?_, ?_⟩
  · unfold handleRunTask
    rw [if_neg hbase2, if_neg hgate2, if_neg hsucc]
    dsimp only
    rw [if_neg hmsg]
    rfl
  · intro t ht hprop
    unfold handleRunTask
    rw [if_neg hbase2, if_neg hgate2, if_neg hsucc]
    dsimp only
    refine ⟨_, List.mem_map_of_mem _ ht, ?_⟩
    rw [if_pos hprop.1]
    exact ⟨rfl, hprop.2, rfl, rfl, rfl⟩

/-- C10: a failed `git status` subprocess makes `checkForGitChanges`
return `(false, nil)` rather than an error, so a run whose status check
fails is reported as a success with no file changes and the commit-push
phase is skipped (the call succeeds for every commit-push outcome,
including a failing one). -/
theorem status_failure_silent_success (env : StartEnv) (dirs : List String)
    (n : String) (tid : Int) (title descr base : String) (ws : Workspace)
    (hname : ¬ goTrimSpace n = "") (hid : ¬ tid ≤ 0)
    (htitle : ¬ goTrimSpace title = "") (hbase : ¬ goTrimSpace base = "")
    (hfind : (deduplicateWorkspaces env.workspaces).find? (fun x => x.name = n) = some ws)
    (hopen : ¬ env.repoOpenOk = false) (hfetch : ¬ env.fetchOk = false)
    (hcreate : ¬ env.worktreeCreateOk = false)
    (hclaude : ¬ env.claudeResult.success = false)
    (hstat : env.gitStatusOutput = none) :
    checkForGitChanges none = (false, []) ∧
    (startTaskConversation env dirs n tid title descr base).result.success = true ∧
    (startTaskConversation env dirs n tid title descr base).result.filesChanged = [] ∧
    (startTaskConversation env dirs n tid title descr base).result.message
      = startSuccessMsg tid (generateBranchName tid title) := by
  have hch : checkForGitChanges env.gitStatusOutput = (false, []) := by
    rw [hstat]
    rfl
  rw [startTaskConversation_reached env dirs n tid title descr base ws
    hname hid htitle hbase hfind hopen hfetch hcreate]
  rw [if_neg hclaude]
  have hno : ¬ ((checkForGitChanges env.gitStatusOutput).1 = true ∧
      env.commitPushOk = false) := by
    rintro ⟨h1, _⟩
    rw [hch] at h1
    exact Bool.false_ne_true h1
  rw [if_neg hno]
  refine ⟨rfl, rfl, ?_, rfl⟩
  rw [hch]

/-- C2 (amended): whenever the agent call returns successfully and the
subsequent commit-and-push — performed only when changes were detected —
does not fail, the run is reported as a success, the task transitions to
`in-progress` with `isRunning` cleared regardless of whether file changes
were produced, and the execution result carries the non-empty branch name
and echoes the session identifier reported by the agent. That identifier
is the one carried by the last result message of the agent transcript
(`ExecuteTask` returns success even when the transcript carried none, the
identifier then being empty, in which case the frontend stores no
`sessionId`). As originally stated the claim fails twice: when the commit
or push fails after a successful agent call, and in its non-empty-session
conjunct. -/
theorem agent_success_reports_branch_session (env : StartEnv) (dirs : List String)
    (n : String) (tid : Int) (title descr base : String) (ws : Workspace)
    (tasks : List Task) (task : Task)
    (hname : ¬ goTrimSpace n = "") (hid : ¬ tid ≤ 0)
    (htitle : ¬ goTrimSpace title = "") (hbase : ¬ goTrimSpace base = "")
    (hfind : (deduplicateWorkspaces env.workspaces).find? (fun x => x.name = n) = some ws)
    (hopen : ¬ env.repoOpenOk = false) (hfetch : ¬ env.fetchOk = false)
    (hcreate : ¬ env.worktreeCreateOk = false)
    (hclaude : ¬ env.claudeResult.success = false)
    (hcommit : ¬ env.commitPushOk = false)
    (hbase2 : ¬ base = "")
    (hgate : task.dependencies.isEmpty = true ∨ allDependenciesCompleted tasks task = true) :
    (startTaskConversation env dirs n tid title descr base).result.success = true ∧
    (startTaskConversation env dirs n tid title descr base).result.branchName
      = generateBranchName tid title ∧
    ¬ (startTaskConversation env dirs n tid title descr base).result.branchName = "" ∧
    (startTaskConversation env dirs n tid title descr base).result.sessionID
      = env.claudeResult.sessionID ∧
    (∀ t ∈ tasks, t.id = task.id →
      ∃ t2 ∈ (handleRunTask tasks task base n
          (startTaskConversation env dirs n tid title descr base).result).tasks,
        t2.id = t.id ∧ t2.status = "in-progress" ∧ t2.isRunning = false ∧
        t2.sessionId = (if env.claudeResult.sessionID = "" then none
          else some env.claudeResult.sessionID)) ∧
    (∀ (msgs : List ClaudeMessage) (tid2 : Int), ¬ msgs = [] →
      (executeTask false msgs tid2).success = true ∧
      (executeTask false msgs tid2).sessionID = finalSessionID msgs "") := by
  rw [startTaskConversation_reached env dirs n tid title descr base ws
    hname hid htitle hbase hfind hopen hfetch hcreate]
  have hno : ¬ ((checkForGitChanges env.gitStatusOutput).1 = true ∧
      env.commitPushOk = false) := by
    rintro ⟨_, hc⟩
    exact hcommit hc
  rw [if_neg hclaude, if_neg hno]
  refine ⟨rfl, rfl, generateBranchName_ne_empty tid title, rfl, ?_, ?_⟩
  · intro t ht hidt
    unfold handleRunTask
    rw [if_neg hbase2, if_neg (gate_not_blocked hgate), if_pos rfl]
    dsimp only
    refine ⟨_, List.mem_map_of_mem _ ht, ?_⟩
    rw [if_pos hidt]
    exact ⟨rfl, rfl, rfl, rfl⟩
  · intro msgs tid2 hne
    unfold executeTask
    rw [if_neg (fun h => Bool.noConfusion h),
      if_neg (fun h => hne (List.length_eq_zero.mp h))]
    exact ⟨rfl, rfl⟩

/-- Sample environment where the agent succeeds but the push fails
afterwards: changes were detected and the commit-push outcome is a
failure. -/
def env2 : StartEnv :=
  ⟨[ws6], true, true, true, "",
    ⟨true, "agent reply", "sess-1", []⟩, some (" M a.txt"), false,
    "Failed to push branch"⟩

/-- Sample board task 3, status todo, no dependencies. -/
def taskD : Task := ⟨3, "Fix", "", [], "todo", none, none, false⟩

/-- Agent result for a non-empty transcript holding no result message:
`ExecuteTask` reports success with an empty session id. -/
def cr4 : ClaudeResult := executeTask false [ClaudeMessage.assistant (["a.txt"])] 3

/-- Environment where the agent succeeded without a session id and the
commit-and-push succeeds. -/
def env4 : StartEnv :=
  ⟨[ws6], true, true, true, "", cr4, some (" M a.txt"), true, ""⟩

/-- Counterexample to C2 as stated, at two concrete inputs. On `env2` the
agent call returns successfully, yet the run is reported as a failure
with empty branch name and empty session identifier, and the frontend
leaves the task at `todo` instead of transitioning it to `in-progress`.
On `env4` the agent call (the real `ExecuteTask`, on a transcript with no
result message) returns successfully and the run succeeds, yet the
execution result carries an empty session identifier and the frontend
stores none. -/
theorem agent_success_claim_counterexample :
    (env2.claudeResult.success = true ∧
      (startTaskConversation env2 [] ("proj") 3 ("Fix") ("") ("main")).result.success
        = false ∧
      (startTaskConversation env2 [] ("proj") 3 ("Fix") ("") ("main")).result.branchName
        = "" ∧
      (startTaskConversation env2 [] ("proj") 3 ("Fix") ("") ("main")).result.sessionID
        = "" ∧
      ((handleRunTask [taskD] taskD ("main") ("proj")
          (startTaskConversation env2 [] ("proj") 3 ("Fix") ("") ("main")).result).tasks.map
        Task.status = ["todo"])) ∧
    (cr4.success = true ∧ cr4.sessionID = "" ∧
      (startTaskConversation env4 [] ("proj") 3 ("Fix") ("") ("main")).result.success
        = true ∧
      (startTaskConversation env4 [] ("proj") 3 ("Fix") ("") ("main")).result.sessionID
        = "" ∧
      ((handleRunTask [taskD] taskD ("main") ("proj")
          (startTaskConversation env4 [] ("proj") 3 ("Fix") ("") ("main")).result).tasks.map
        Task.sessionId = [none])) := by
  decide

/-- Sample environment for a fully successful run: the agent call (the
real `ExecuteTask`, on a transcript whose result message carries
`sess-1`) succeeds, changes detected, commit-and-push succeeds. -/
def env3 : StartEnv :=
  ⟨[ws6], true, true, true, "",
    executeTask false [ClaudeMessage.result ("sess-1")] 3,
    some (" M a.txt"), true, ""⟩

/-- Concrete instantiation of the amended C2 on `env3`. -/
theorem agent_success_witness :
    ((¬ env3.claudeResult.success = false) ∧ (¬ env3.commitPushOk = false)) ∧
    ((startTaskConversation env3 [] ("proj") 3 ("Fix") ("") ("main")).result.success = true ∧
      (startTaskConversation env3 [] ("proj") 3 ("Fix") ("") ("main")).result.branchName
        = generateBranchName 3 ("Fix") ∧
      ¬ (startTaskConversation env3 [] ("proj") 3 ("Fix") ("") ("main")).result.branchName
        = "" ∧
      (startTaskConversation env3 [] ("proj") 3 ("Fix") ("") ("main")).result.sessionID
        = env3.claudeResult.sessionID ∧
      (∀ t ∈ [taskD], t.id = taskD.id →
        ∃ t2 ∈ (handleRunTask [taskD] taskD ("main") ("proj")
            (startTaskConversation env3 [] ("proj") 3 ("Fix") ("") ("main")).result).tasks,
          t2.id = t.id ∧ t2.status = "in-progress" ∧ t2.isRunning = false ∧
          t2.sessionId = (if env3.claudeResult.sessionID = "" then none
            else some env3.claudeResult.sessionID)) ∧
      (∀ (msgs : List ClaudeMessage) (tid2 : Int), ¬ msgs = [] →
        (executeTask false msgs tid2).success = true ∧
        (executeTask false msgs tid2).sessionID = finalSessionID msgs "")) :=
  ⟨⟨by decide, by decide⟩,
    agent_success_reports_branch_session env3 [] ("proj") 3 ("Fix") ("") ("main") ws6
      [taskD] taskD (by decide) (by decide) (by decide) (by decide) (by decide)
      (by decide) (by decide) (by decide) (by decide) (by decide) (by decide)
      (Or.inl (by decide))⟩

/-- Sample environment where the agent call fails. -/
def env7 : StartEnv :=
  ⟨[ws6], true, true, true, "",
    ⟨false, "agent exploded", "", []⟩, none, true, ""⟩

/-- Concrete instantiation of C7 on `env7`. -/
theorem agent_failure_returns_todo_witness :
    (env7.claudeResult.success = false) ∧
    ((startTaskConversation env7 [] ("proj") 3 ("Fix") ("") ("main")).result.success = false ∧
      (startTaskConversation env7 [] ("proj") 3 ("Fix") ("") ("main")).result.message
        = "Failed to start Claude session: " ++ env7.claudeResult.message ∧
      worktreePathFor ws6 3 ("proj")
        ∈ (startTaskConversation env7 [] ("proj") 3 ("Fix") ("") ("main")).dirs ∧
      (handleRunTask [taskD] taskD ("main") ("proj")
          (startTaskConversation env7 [] ("proj") 3 ("Fix") ("") ("main")).result).error
        = some ("Failed to start Claude session: " ++ env7.claudeResult.message) ∧
      (∀ t ∈ [taskD], t.id = taskD.id ∧ t.status = "todo" →
        ∃ t2 ∈ (handleRunTask [taskD] taskD ("main") ("proj")
            (startTaskConversation env7 [] ("proj") 3 ("Fix") ("") ("main")).result).tasks,
          t2.id = t.id ∧ t2.status = "todo" ∧ t2.isRunning = false ∧
          t2.worktreePath = t.worktreePath ∧ t2.sessionId = t.sessionId)) :=
  ⟨by decide,
    agent_failure_returns_todo env7 [] ("proj") 3 ("Fix") ("") ("main") ws6 [taskD] taskD
      (by decide) (by decide) (by decide) (by decide) (by decide) (by decide)
      (by decide) (by decide) (by decide) (by decide) (Or.inl (by decide))⟩

/-- Sample environment where the status subprocess fails after a
successful agent call, with a commit-push outcome that would fail. -/
def env10 : StartEnv :=
  ⟨[ws6], true, true, true, "",
    ⟨true, "agent reply", "sess-1", []⟩, none, false, "push would fail"⟩

/-- Concrete instantiation of C10 on `env10`. -/
theorem status_failure_silent_success_witness :
    (env10.gitStatusOutput = none ∧ env10.commitPushOk = false) ∧
    (checkForGitChanges none = (false, []) ∧
      (startTaskConversation env10 [] ("proj") 3 ("Fix") ("") ("main")).result.success = true ∧
      (startTaskConversation env10 [] ("proj") 3 ("Fix") ("") ("main")).result.filesChanged
        = [] ∧
      (startTaskConversation env10 [] ("proj") 3 ("Fix") ("") ("main")).result.message
        = startSuccessMsg 3 (generateBranchName 3 ("Fix"))) :=
  ⟨⟨by decide, by decide⟩,
    status_failure_silent_success env10 [] ("proj") 3 ("Fix") ("") ("main") ws6
      (by decide) (by decide) (by decide) (by decide) (by decide) (by decide)
      (by decide) (by decide) (by decide) (by decide)⟩

/-- Sample task with an active worktree and session. -/
def taskC : Task :=
  ⟨5, "T", "", [], "in-progress", some ("/wt/task-5-proj"), some ("sess-5"), false⟩

/-- Counterexample to C3 as stated: moving `taskC` to done with a
resolved cleanup call clears `worktreePath` but leaves `sessionId` set —
the two fields are not cleared together. The same holds for the
status-update path. -/
theorem done_move_counterexample :
    (handleTaskMove [taskC] taskC ("in-progress") ("done") true).cleanupCalled = true ∧
    ((handleTaskMove [taskC] taskC ("in-progress") ("done") true).tasks.map Task.worktreePath
      = [none]) ∧
    ¬ ((handleTaskMove [taskC] taskC ("in-progress") ("done") true).tasks.map Task.sessionId
      = [none]) ∧
    ((handleTaskMove [taskC] taskC ("in-progress") ("done") true).tasks.map Task.sessionId
      = [some ("sess-5")]) ∧
    ((handleTaskStatusUpdate [taskC] 5 ("done") true true).tasks.map Task.sessionId
      = [some ("sess-5")]) := by
  decide

/-- C3 (amended): moving a task holding an active worktree to `done`
triggers the worktree-destruction call; when the call resolves, the task
record gets status `done` and its `worktreePath` cleared, while
`sessionId` is left unchanged (the code does not clear it with the
worktree); when the cleanup call fails, the status change to `done` is
still applied (and `worktreePath` is then also left unchanged). The
status-update path behaves identically. -/
theorem done_move_cleanup (tasks : List Task) (task : Task) (src : String) (ok : Bool)
    (hsrc : ¬ src = "done")
    (hgate : task.dependencies.isEmpty = true ∨ allDependenciesCompleted tasks task = true) :
    ((handleTaskMove tasks task src ("done") ok).cleanupCalled = true ∧
      ∀ t ∈ tasks, t.id = task.id →
        ∃ t2 ∈ (handleTaskMove tasks task src ("done") ok).tasks,
          t2.id = t.id ∧ t2.status = "done" ∧ t2.sessionId = t.sessionId ∧
          (ok = true → t2.worktreePath = none) ∧
          (ok = false → t2.worktreePath = t.worktreePath)) ∧
    ((handleTaskStatusUpdate tasks task.id ("done") true ok).cleanupCalled = true ∧
      ∀ t ∈ tasks, t.id = task.id →
        ∃ t2 ∈ (handleTaskStatusUpdate tasks task.id ("done") true ok).tasks,
          t2.id = t.id ∧ t2.status = "done" ∧ t2.sessionId = t.sessionId ∧
          (ok = true → t2.worktreePath = none) ∧
          (ok = false → t2.worktreePath = t.worktreePath)) := by
  have hgate3 : ¬ ((¬ task.dependencies.isEmpty = true) ∧
      allDependenciesCompleted tasks task = false ∧ ¬ ("done" : String) = "todo") := by
    rintro ⟨h1, h2, _⟩
    exact gate_not_blocked hgate ⟨h1, h2⟩
  constructor
  · unfold handleTaskMove
    rw [if_neg hsrc, if_neg hgate3, if_pos rfl]
    rcases ok with _ | _
    · rw [if_neg (by exact fun h => Bool.noConfusion h)]
      refine ⟨rfl, ?_⟩
      intro t ht hidt
      refine ⟨_, List.mem_map_of_mem _ ht, ?_⟩
      rw [if_pos hidt]
      exact ⟨rfl, rfl, rfl, fun h => Bool.noConfusion h, fun _ => rfl⟩
    · rw [if_pos rfl]
      refine ⟨rfl, ?_⟩
      intro t ht hidt
      refine ⟨_, List.mem_map_of_mem _ ht, ?_⟩
      rw [if_pos hidt]
      exact ⟨rfl, rfl, rfl, fun _ => rfl, fun h => Bool.noConfusion h⟩
  · unfold handleTaskStatusUpdate
    rw [if_pos ⟨rfl, rfl⟩]
    rcases ok with _ | _
    · rw [if_neg (by exact fun h => Bool.noConfusion h)]
      refine ⟨rfl, ?_⟩
      intro t ht hidt
      refine ⟨_, List.mem_map_of_mem _ ht, ?_⟩
      rw [if_pos hidt]
      exact ⟨rfl, rfl, rfl, fun h => Bool.noConfusion h, fun _ => rfl⟩
    · rw [if_pos rfl]
      refine ⟨rfl, ?_⟩
      intro t ht hidt
      refine ⟨_, List.mem_map_of_mem _ ht, ?_⟩
      rw [if_pos hidt]
      exact ⟨rfl, rfl, rfl, fun _ => rfl, fun h => Bool.noConfusion h⟩

/-- Concrete instantiation of the amended C3 on `taskC`. -/
theorem done_move_cleanup_witness :
    ((¬ ("in-progress" : String) = "done") ∧ taskC.dependencies.isEmpty = true) ∧
    (((handleTaskMove [taskC] taskC ("in-progress") ("done") true).cleanupCalled = true ∧
      ∀ t ∈ [taskC], t.id = taskC.id →
        ∃ t2 ∈ (handleTaskMove [taskC] taskC ("in-progress") ("done") true).tasks,
          t2.id = t.id ∧ t2.status = "done" ∧ t2.sessionId = t.sessionId ∧
          (true = true → t2.worktreePath = none) ∧
          (true = false → t2.worktreePath = t.worktreePath)) ∧
    ((handleTaskStatusUpdate [taskC] taskC.id ("done") true true).cleanupCalled = true ∧
      ∀ t ∈ [taskC], t.id = taskC.id →
        ∃ t2 ∈ (handleTaskStatusUpdate [taskC] taskC.id ("done") true true).tasks,
          t2.id = t.id ∧ t2.status = "done" ∧ t2.sessionId = t.sessionId ∧
          (true = true → t2.worktreePath = none) ∧
          (true = false → t2.worktreePath = t.worktreePath))) :=
  ⟨⟨by decide, by decide⟩,
    done_move_cleanup [taskC] taskC ("in-progress") true (by decide) (Or.inl (by decide))⟩

end Specprint
